import Mathlib

/-!
Verification model of the rust-fractal renderer (`src/renderer.rs`).

The renderer orchestrates a deep-zoom Mandelbrot render: it parses settings,
builds a series approximation and a reference orbit, seeds per-pixel deltas,
runs perturbation, and then repeatedly repairs glitched pixels with freshly
chosen references until the glitched population falls below a tolerance.

Modelling conventions: `f64` values are embedded as exact rationals (`ℚ`);
the two transcendental one-liners of the renderer (zoom-string conversion and
the automatic series-approximation order) are additionally embedded over `ℝ`.
Collaborators of the renderer that live outside `renderer.rs` (the extended
float arithmetic, the perturbation kernel, the series approximation, the
reference orbit and the settings/location parsers) are modelled from the
specification and marked as such; the renderer treats them through their
interfaces, which the model makes explicit as structure fields.
-/

namespace RustFractal

/-- Model of `ComplexFixed` (a complex number of two `f64` components),
with the components idealized as rationals. -/
structure ComplexFixed where
  re : ℚ
  im : ℚ
deriving DecidableEq

instance : Inhabited ComplexFixed := ⟨⟨0, 0⟩⟩

/-- Model of `FloatExtended { mantissa: f64, exponent: i32 }`,
representing `mantissa * 2 ^ exponent`. -/
structure FloatExtended where
  mantissa : ℚ
  exponent : ℤ
deriving DecidableEq

instance : Inhabited FloatExtended := ⟨⟨0, 0⟩⟩

/-- Model of `ComplexExtended { re: f64, im: f64, exponent: i32 }`:
both components share one binary exponent. -/
structure ComplexExtended where
  re : ℚ
  im : ℚ
  exponent : ℤ
deriving DecidableEq

instance : Inhabited ComplexExtended := ⟨⟨0, 0, 0⟩⟩

/-- Modelled from the spec: reduction of an extended float (the code for
`FloatExtended::reduce` is outside `renderer.rs`).  If the mantissa is zero the
value is canonical zero; otherwise the base-2 exponent of the mantissa is
extracted and folded into the exponent so that `|mantissa| ∈ [1, 2)`. -/
def FloatExtended.reduce (x : FloatExtended) : FloatExtended :=
  if x.mantissa = 0 then ⟨0, 0⟩
  else
    let k := Int.log 2 |x.mantissa|
    ⟨x.mantissa / (2 : ℚ) ^ k, x.exponent + k⟩

/-- Modelled from the spec: division of a double by an extended float, used by
the renderer as `... / zoom` (the `Div<FloatExtended> for f64` impl is outside
`renderer.rs`).  The value is `(q / mantissa) * 2 ^ (-exponent)`, reduced. -/
def FloatExtended.qdiv (q : ℚ) (x : FloatExtended) : FloatExtended :=
  FloatExtended.reduce ⟨q / x.mantissa, -x.exponent⟩

/-- Modelled from the spec: division of an extended float by a double
(the impl is outside `renderer.rs`).  Divides the mantissa and reduces. -/
def FloatExtended.divq (x : FloatExtended) (q : ℚ) : FloatExtended :=
  FloatExtended.reduce ⟨x.mantissa / q, x.exponent⟩

/-- Modelled from the spec: multiplication of an extended float by a double
(the impl is outside `renderer.rs`).  Multiplies the mantissa and reduces. -/
def FloatExtended.mulq (x : FloatExtended) (q : ℚ) : FloatExtended :=
  FloatExtended.reduce ⟨x.mantissa * q, x.exponent⟩

/-- Modelled from the spec: reduction of an extended complex value: rescale
both components by one power of two so that `max (|re|) (|im|) ∈ [1, 2)`,
or produce canonical zero. -/
def ComplexExtended.reduce (c : ComplexExtended) : ComplexExtended :=
  if max |c.re| |c.im| = 0 then ⟨0, 0, 0⟩
  else
    let k := Int.log 2 (max |c.re| |c.im|)
    ⟨c.re / (2 : ℚ) ^ k, c.im / (2 : ℚ) ^ k, c.exponent + k⟩

/-- `ComplexExtended::new(c, e)` packs a double complex with an exponent,
without renormalizing; this matches the renderer's use at pixel packing,
where the shared exponent is exactly `-zoom.exponent`. -/
def ComplexExtended.new (c : ComplexFixed) (e : ℤ) : ComplexExtended :=
  ⟨c.re, c.im, e⟩

/-- Modelled from the spec: exponent-aligned subtraction of extended complex
values (the `Sub` impl is outside `renderer.rs`).  The operand with the
smaller exponent has its mantissa shifted into the larger exponent's frame;
when the exponents differ by more than 53 bits the smaller operand is
absorbed as zero.  The result is reduced. -/
def ComplexExtended.sub (x y : ComplexExtended) : ComplexExtended :=
  if y.exponent ≤ x.exponent then
    if 53 < x.exponent - y.exponent then x
    else
      ComplexExtended.reduce
        ⟨x.re - y.re * (2 : ℚ) ^ (y.exponent - x.exponent),
         x.im - y.im * (2 : ℚ) ^ (y.exponent - x.exponent), x.exponent⟩
  else
    if 53 < y.exponent - x.exponent then
      ComplexExtended.reduce ⟨-y.re, -y.im, y.exponent⟩
    else
      ComplexExtended.reduce
        ⟨x.re * (2 : ℚ) ^ (x.exponent - y.exponent) - y.re,
         x.im * (2 : ℚ) ^ (x.exponent - y.exponent) - y.im, y.exponent⟩

instance : Sub ComplexExtended := ⟨ComplexExtended.sub⟩

/-- The exact value of an extended complex number as a double complex
(used by the modelled perturbation kernel). -/
def ComplexExtended.toFixed (c : ComplexExtended) : ComplexFixed :=
  ⟨c.re * (2 : ℚ) ^ c.exponent, c.im * (2 : ℚ) ^ c.exponent⟩

/-- Squared norm of a double complex value. -/
def ComplexFixed.normSq (c : ComplexFixed) : ℚ :=
  c.re * c.re + c.im * c.im

/-- Model of `PixelData`, the per-pixel record of `renderer.rs`. -/
structure PixelData where
  image_x : ℕ
  image_y : ℕ
  iteration : ℕ
  delta_centre : ComplexExtended
  delta_reference : ComplexExtended
  delta_start : ComplexExtended
  delta_current : ComplexExtended
  derivative_current : ComplexFixed
  glitched : Bool
  escaped : Bool
deriving DecidableEq

instance : Inhabited PixelData :=
  ⟨⟨0, 0, 0, default, default, default, default, default, false, false⟩⟩

/-- Modelled from the spec: the interface of a `ReferenceOrbit` as the
renderer consumes it (the `ReferenceOrbit` code is outside `renderer.rs`):
a start iteration (the series-approximation skip count), the last computed
iteration, and the recorded low-precision orbit. -/
structure Reference where
  start_iteration : ℕ
  current_iteration : ℕ
  orbit : ℕ → ComplexFixed

/-- The per-pixel stopping condition of the perturbation loop: a pixel is done
once it has escaped, has been flagged glitched, or has reached the cap. -/
def pixelDone (cap : ℕ) (p : PixelData) : Bool :=
  p.escaped || p.glitched || decide (cap ≤ p.iteration)

/-- Modelled from the spec: one step of the perturbation recurrence
(`Perturbation` is outside `renderer.rs`): with reference value `Z` at the
pixel's iteration, `delta' = 2*Z*delta + delta^2 + c_delta` and
`derivative' = 2*(Z + delta)*derivative + 1`; escape when `|Z + delta|`
exceeds `1e10` and glitch when `|Z + delta|^2 < 1e-3 * |delta|^2`.
The fields `image_x`, `image_y`, `delta_centre`, `delta_reference` and
`delta_start` are never written. -/
def perturbAdvance (r : Reference) (p : PixelData) : PixelData :=
  let z := r.orbit p.iteration
  let d := p.delta_current.toFixed
  let cd := p.delta_reference.toFixed
  let ndre := 2 * (z.re * d.re - z.im * d.im) + (d.re * d.re - d.im * d.im) + cd.re
  let ndim := 2 * (z.re * d.im + z.im * d.re) + 2 * d.re * d.im + cd.im
  let der := p.derivative_current
  let zdre := z.re + d.re
  let zdim := z.im + d.im
  let nder : ComplexFixed :=
    ⟨2 * (zdre * der.re - zdim * der.im) + 1, 2 * (zdre * der.im + zdim * der.re)⟩
  let znext := r.orbit (p.iteration + 1)
  let zval : ComplexFixed := ⟨znext.re + ndre, znext.im + ndim⟩
  { p with
    iteration := p.iteration + 1,
    delta_current := ⟨ndre, ndim, 0⟩,
    derivative_current := nder,
    escaped := decide ((1e20 : ℚ) < zval.normSq),
    glitched := decide (zval.normSq < (1e-3 : ℚ) * ComplexFixed.normSq ⟨ndre, ndim⟩) }

/-- Modelled from the spec: the per-pixel perturbation loop, advancing a
pixel until it escapes, glitches or reaches the iteration cap; `fuel` bounds
the number of steps (a fuel of `cap` always suffices, see the termination
theorem). -/
def Perturbation.iteratePixel (r : Reference) (cap : ℕ) : ℕ → PixelData → PixelData
  | 0, p => p
  | Nat.succ fuel, p =>
    if pixelDone cap p then p
    else Perturbation.iteratePixel r cap fuel (perturbAdvance r p)

/-- Modelled from the spec: `Perturbation::iterate(pixels, reference, cap)`
advances every pixel independently (data-parallel in the source). -/
def Perturbation.iterate (r : Reference) (cap : ℕ) (pixels : List PixelData) :
    List PixelData :=
  pixels.map (Perturbation.iteratePixel r cap cap)

/-- The state `render` has in scope when packing pixels and repairing
glitches: image dimensions, the glitch tolerance, the per-pixel delta and
top-left delta (both computed from the zoom), the zoom exponent, the
series-approximation interface (`evaluate` and `get_reference`, whose code is
outside `renderer.rs`), and the first reference's `start_iteration`. -/
structure RenderEnv where
  image_width : ℕ
  image_height : ℕ
  glitch_tolerance : ℚ
  delta_pixel : ℚ
  delta_top_left : ComplexFixed
  zoom_exponent : ℤ
  evaluate : ComplexExtended → ComplexExtended
  get_reference : ComplexExtended → Reference
  ref_start : ℕ

/-- The pixel-grid offset the renderer computes for a pixel's coordinates:
`(x * delta_pixel + delta_top_left.re, y * delta_pixel + delta_top_left.im)`
packed with shared exponent `-zoom.exponent`.  This expression appears twice
in `render`: at pixel packing (for `delta_centre`) and at glitch repair
(for the new reference offset `reference_wrt_sa`). -/
def refOffsetOf (env : RenderEnv) (p : PixelData) : ComplexExtended :=
  ComplexExtended.new
    ⟨(p.image_x : ℚ) * env.delta_pixel + env.delta_top_left.re,
     (p.image_y : ℚ) * env.delta_pixel + env.delta_top_left.im⟩
    (-env.zoom_exponent)

/-- `render`'s first-pass pixel construction (lines 104-124 of
`renderer.rs`): index is split into coordinates, the pixel delta is packed
with shared exponent `-zoom.exponent`, and the series approximation is
evaluated at it to seed `delta_start` and `delta_current`. -/
def packPixel (env : RenderEnv) (start_iteration : ℕ) (index : ℕ) : PixelData :=
  let i := index % env.image_width
  let j := index / env.image_width
  let element : ComplexFixed :=
    ⟨(i : ℚ) * env.delta_pixel + env.delta_top_left.re,
     (j : ℚ) * env.delta_pixel + env.delta_top_left.im⟩
  let point_delta := ComplexExtended.new element (-env.zoom_exponent)
  let new_delta := env.evaluate point_delta
  { image_x := i, image_y := j, iteration := start_iteration,
    delta_centre := point_delta, delta_reference := point_delta,
    delta_start := new_delta, delta_current := new_delta,
    derivative_current := ⟨1, 0⟩, glitched := false, escaped := false }

/-- The first-pass pixel vector over all `image_width * image_height` indices. -/
def packPixels (env : RenderEnv) (start_iteration : ℕ) : List PixelData :=
  (List.range (env.image_width * env.image_height)).map (packPixel env start_iteration)

/-- The random choice of a glitched pixel (`pixel_data.choose(.. rng ..)`):
the thread RNG is modelled by an arbitrary natural number, reduced modulo the
pool size so that any choice designates a pool element. -/
def choosePixel (choice : ℕ) (pool : List PixelData) : PixelData :=
  pool.getD (choice % pool.length) default

/-- The offset of the newly chosen reference with respect to the series
approximation: `render` recomputes it from the chosen pixel's `image_x`,
`image_y` by the packing formula (lines 146-148 of `renderer.rs`). -/
def refWrtSaOf (env : RenderEnv) (choice : ℕ) (pool : List PixelData) : ComplexExtended :=
  refOffsetOf env (choosePixel choice pool)

/-- The per-pixel reset of the glitch-repair pass (lines 157-165 of
`renderer.rs`): iteration back to the first reference's start, glitch flag
cleared, `delta_current = delta_start - delta_z` and
`delta_reference = delta_centre - reference_wrt_sa`.  The commented-out
derivative reset is absent. -/
def repairReset (start_iteration : ℕ) (delta_z reference_wrt_sa : ComplexExtended)
    (p : PixelData) : PixelData :=
  { p with
    iteration := start_iteration,
    glitched := false,
    delta_current := p.delta_start - delta_z,
    delta_reference := p.delta_centre - reference_wrt_sa }

/-- The reset pool of one glitch-repair pass, before perturbation is run:
every surviving glitched pixel is reset against the chosen reference offset
and its series-approximation evaluation `delta_z`. -/
def repairResetPool (env : RenderEnv) (choice : ℕ) (pool : List PixelData) :
    List PixelData :=
  pool.map
    (repairReset env.ref_start (env.evaluate (refWrtSaOf env choice pool))
      (refWrtSaOf env choice pool))

/-- One full glitch-repair pass (lines 144-174 of `renderer.rs`): choose a
pixel, build the new reference, reset the pool, run perturbation up to the
new reference's `current_iteration`, and retain only still-glitched pixels. -/
def repairPass (env : RenderEnv) (choice : ℕ) (pool : List PixelData) :
    List PixelData :=
  let r := env.get_reference (refWrtSaOf env choice pool)
  (Perturbation.iterate r r.current_iteration (repairResetPool env choice pool)).filter
    (fun p => p.glitched)

/-- The glitch-repair loop threshold of `renderer.rs` line 143:
`0.01 * glitch_tolerance * (image_width * image_height)`. -/
def repairThreshold (env : RenderEnv) : ℚ :=
  0.01 * env.glitch_tolerance * ((env.image_width * env.image_height : ℕ) : ℚ)

/-- The glitch-repair `while` loop (lines 143-175 of `renderer.rs`),
with the RNG modelled as a stream of choices and an explicit pass budget
`fuel` (the loop body runs only while the glitched count exceeds the
threshold). -/
def repairLoop (env : RenderEnv) : (ℕ → ℕ) → ℕ → List PixelData → List PixelData
  | _, 0, pool => pool
  | choices, Nat.succ fuel, pool =>
    if (pool.length : ℚ) > repairThreshold env then
      repairLoop env (fun n => choices (n + 1)) fuel (repairPass env (choices 0) pool)
    else pool

/-- The keyed settings record as the renderer constructor reads it: the six
entries it queries, each `none` when the key is missing or its value cannot
be read at the queried type (the `config` crate is an external collaborator). -/
structure Config where
  image_width : Option ℤ
  image_height : Option ℤ
  iterations : Option ℤ
  zoom : Option String
  real : Option String
  imag : Option String

/-- Modelled from the spec: the external parsing collaborators of
`FractalRenderer::new`: splitting and parsing the zoom string (line 38),
parsing the center location strings (line 46, `ComplexArbitrary::parse`),
building the extended zoom float from the parsed mantissa/exponent pair
(transcendental `f64` arithmetic), and the raw automatic
series-approximation-order value (the `f64` log/pow expression of line 49,
before clamping). -/
structure ParseOracle where
  parseZoom : String → Option (ℚ × ℚ)
  parseLocation : String → String → Option (ℚ × ℚ)
  zoomOf : ℚ → ℚ → FloatExtended
  autoRawFn : ℕ → ℕ → ℕ

/-- The two fatal construction failures of `FractalRenderer::new`: a missing
or unreadable settings key (an `unwrap` panic) and an invalid center
location (the `expect` panic of line 46). -/
inductive NewError where
  | configError : NewError
  | locationError : NewError
deriving DecidableEq

/-- Rust's `as usize` cast from a 64-bit integer: wrap modulo `2 ^ 64`. -/
def usizeOfInt (i : ℤ) : ℕ :=
  (i % (2 : ℤ) ^ 64).toNat

/-- `min(max(auto, 3), 64)`: the clamp applied to the raw automatic
series-approximation order (line 50 of `renderer.rs`). -/
def clampOrder (a : ℕ) : ℕ :=
  min (max a 3) 64

/-- `delta_pixel` as computed in `FractalRenderer::new` (line 40):
`(-2.0 * (4.0 / H - 2.0) / zoom) / H` in the extended domain. -/
def newDeltaPixel (zoom : FloatExtended) (image_height : ℕ) : FloatExtended :=
  FloatExtended.divq
    (FloatExtended.qdiv (-2 * (4 / (image_height : ℚ) - 2)) zoom)
    (image_height : ℚ)

/-- `radius` as computed in `FractalRenderer::new` (line 41):
`delta_pixel * image_width` in the extended domain. -/
def newRadius (zoom : FloatExtended) (image_width image_height : ℕ) : FloatExtended :=
  FloatExtended.mulq (newDeltaPixel zoom image_height) (image_width : ℚ)

/-- The precision chosen for the arbitrary-precision center (line 42):
`max(64, -radius.exponent + 64)`. -/
def newPrecision (zoom : FloatExtended) (image_width image_height : ℕ) : ℤ :=
  max 64 (-(newRadius zoom image_width image_height).exponent + 64)

/-- Model of the `FractalRenderer` state produced by `new`. -/
structure FractalRenderer where
  image_width : ℕ
  image_height : ℕ
  aspect : ℚ
  zoom : FloatExtended
  center_location : ℚ × ℚ
  center_precision : ℤ
  maximum_iteration : ℕ
  approximation_order : ℕ
  glitch_tolerance : ℚ
deriving DecidableEq

/-- `FractalRenderer::new` (lines 25-66 of `renderer.rs`): read the six
settings entries (each `unwrap` panic is modelled as a `configError`),
parse the zoom string, compute the pixel delta, radius and precision, parse
the center location (the `expect` panic is a `locationError`), and clamp the
automatic approximation order; the local `approximation_order` is the
hardcoded `0` of line 32. -/
def FractalRenderer.new (P : ParseOracle) (s : Config) :
    Except NewError FractalRenderer :=
  match s.image_width with
  | none => Except.error NewError.configError
  | some iw =>
  match s.image_height with
  | none => Except.error NewError.configError
  | some ih =>
  match s.iterations with
  | none => Except.error NewError.configError
  | some it =>
  match s.zoom with
  | none => Except.error NewError.configError
  | some initial_zoom =>
  match s.real with
  | none => Except.error NewError.configError
  | some center_real =>
  match s.imag with
  | none => Except.error NewError.configError
  | some center_imag =>
  match P.parseZoom initial_zoom with
  | none => Except.error NewError.configError
  | some (zm, ze) =>
  match P.parseLocation center_real center_imag with
  | none => Except.error NewError.locationError
  | some loc =>
    let image_width := usizeOfInt iw
    let image_height := usizeOfInt ih
    let maximum_iteration := usizeOfInt it
    let approximation_order : ℕ := 0
    let glitch_tolerance : ℚ := 0.01
    let aspect : ℚ := (image_width : ℚ) / (image_height : ℚ)
    let zoom := P.zoomOf zm ze
    let delta_pixel := newDeltaPixel zoom image_height
    let radius := FloatExtended.mulq delta_pixel (image_width : ℚ)
    let precision := max 64 (-radius.exponent + 64)
    let auto_approximation :=
      if approximation_order = 0 then clampOrder (P.autoRawFn image_width image_height)
      else approximation_order
    Except.ok
      { image_width := image_width, image_height := image_height,
        aspect := aspect, zoom := zoom,
        center_location := loc, center_precision := precision,
        maximum_iteration := maximum_iteration,
        approximation_order := auto_approximation,
        glitch_tolerance := glitch_tolerance }

/-- `delta_pixel` as recomputed inside `render` (line 69), which divides by
`zoom.mantissa` in plain doubles. -/
def renderDeltaPixel (zoom : FloatExtended) (image_height : ℕ) : ℚ :=
  (-2 * (4 / (image_height : ℚ) - 2) / zoom.mantissa) / (image_height : ℚ)

/-- `delta_top_left` as computed inside `render` (line 72). -/
def renderDeltaTopLeft (zoom : FloatExtended) (image_width image_height : ℕ)
    (aspect : ℚ) : ComplexFixed :=
  ⟨(4 / (image_width : ℚ) - 2) / zoom.mantissa * aspect,
   (4 / (image_height : ℚ) - 2) / zoom.mantissa⟩

/-- An extended float over the reals, for the transcendental zoom-string
conversion of `FractalRenderer::new` line 38. -/
structure FloatExtendedReal where
  mantissa : ℝ
  exponent : ℤ

/-- Rust's `f64::trunc`: rounding toward zero, so the floor for nonnegative
arguments and the ceiling for negative ones. -/
noncomputable def rustTrunc (x : ℝ) : ℤ :=
  if 0 ≤ x then ⌊x⌋ else ⌈x⌉

/-- Rust's `f64::fract`: `x - x.trunc()`.  This agrees with `x - ⌊x⌋` only
for `x ≥ 0`; for negative non-integer `x` it lies in `(-1, 0)` and differs
from `x - ⌊x⌋` by exactly 1. -/
noncomputable def rustFract (x : ℝ) : ℝ :=
  x - rustTrunc x

/-- The zoom-string conversion of `renderer.rs` line 38, with the parsed
decimal mantissa `m` and decimal exponent `e` idealized as reals and
`LOG2_10` as the exact `log₂ 10`: the extended float
`(m * 2 ^ (e * log₂ 10).fract(), ⌊e * log₂ 10⌋)`.  The mantissa uses Rust's
truncation-based `fract` while the exponent uses `floor`, so the two agree
about the split only when `e * log₂ 10 ≥ 0`. -/
noncomputable def parseZoomReal (m e : ℝ) : FloatExtendedReal :=
  ⟨m * (2 : ℝ) ^ rustFract (e * Real.logb 2 10), ⌊e * Real.logb 2 10⌋⟩

/-- The raw automatic series-approximation order of `renderer.rs` line 49,
idealized over the reals: `((W * H).log(1e6).powf(6.619) * 16) as usize`,
with the saturating `f64`-to-`usize` cast. -/
noncomputable def autoRawReal (image_width image_height : ℕ) : ℕ :=
  (⌊(Real.logb 1e6 ((image_width : ℝ) * (image_height : ℝ))) ^ (6.619 : ℝ) * 16⌋).toNat

/-- The automatic series-approximation order (lines 48-53 of `renderer.rs`):
the raw value clamped to `[3, 64]`. -/
noncomputable def autoApproximationOrder (image_width image_height : ℕ) : ℕ :=
  clampOrder (autoRawReal image_width image_height)

/-- A concrete reference orbit used to exercise the model. -/
def ref0 : Reference :=
  ⟨0, 0, fun _ => ⟨0, 0⟩⟩

/-- A concrete render environment used to exercise the model. -/
def env0 : RenderEnv :=
  { image_width := 10, image_height := 10, glitch_tolerance := 0.01,
    delta_pixel := 0, delta_top_left := ⟨0, 0⟩, zoom_exponent := 0,
    evaluate := fun c => c, get_reference := fun _ => ref0, ref_start := 0 }

/-- A concrete glitched pixel consistent with `env0`'s packing formula:
the pixel packed at index 0, surviving the first pass as glitched. -/
def px0 : PixelData :=
  { packPixel env0 0 0 with glitched := true }

/-- A concrete parsing oracle used to exercise the constructor model. -/
def oracle0 : ParseOracle :=
  { parseZoom := fun _ => some (1, 0),
    parseLocation := fun _ _ => some (0, 0),
    zoomOf := fun m _ => ⟨m, 0⟩,
    autoRawFn := fun _ _ => 10 }

/-- A concrete well-formed settings record. -/
def config0 : Config :=
  { image_width := some 64, image_height := some 64, iterations := some 100,
    zoom := some "1E1", real := some "0", imag := some "0" }

/-- `config0` with the `imag` entry missing. -/
def configBad : Config :=
  { config0 with imag := none }

/-- The renderer that `FractalRenderer.new oracle0 config0` constructs,
written out field by field. -/
def renderer0 : FractalRenderer :=
  { image_width := usizeOfInt 64, image_height := usizeOfInt 64,
    aspect := (usizeOfInt 64 : ℚ) / (usizeOfInt 64 : ℚ),
    zoom := oracle0.zoomOf 1 0,
    center_location := (0, 0),
    center_precision :=
      max 64
        (-(FloatExtended.mulq (newDeltaPixel (oracle0.zoomOf 1 0) (usizeOfInt 64))
              (usizeOfInt 64 : ℚ)).exponent + 64),
    maximum_iteration := usizeOfInt 100,
    approximation_order :=
      if (0 : ℕ) = 0 then clampOrder (oracle0.autoRawFn (usizeOfInt 64) (usizeOfInt 64))
      else 0,
    glitch_tolerance := 0.01 }

/-- The perturbation loop never writes a pixel's `delta_centre`, `image_x`
or `image_y`. -/
theorem iteratePixel_preserves_coords (r : Reference) (cap : ℕ) :
    ∀ (fuel : ℕ) (p : PixelData),
      (Perturbation.iteratePixel r cap fuel p).delta_centre = p.delta_centre ∧
      (Perturbation.iteratePixel r cap fuel p).image_x = p.image_x ∧
      (Perturbation.iteratePixel r cap fuel p).image_y = p.image_y := by
  intro fuel
  induction fuel with
  | zero => intro p; exact ⟨rfl, rfl, rfl⟩
  | succ n ih =>
    intro p
    simp only [Perturbation.iteratePixel]
    split
    · exact ⟨rfl, rfl, rfl⟩
    · exact ih (perturbAdvance r p)

/-- With a fuel covering the distance to the cap, the perturbation loop ends
in a done state: the pixel has escaped, glitched or reached the cap. -/
theorem iteratePixel_done_of_fuel (r : Reference) (cap : ℕ) :
    ∀ (fuel : ℕ) (p : PixelData), cap ≤ p.iteration + fuel →
      pixelDone cap (Perturbation.iteratePixel r cap fuel p) = true := by
  intro fuel
  induction fuel with
  | zero =>
    intro p h
    simp only [Perturbation.iteratePixel, pixelDone]
    have : cap ≤ p.iteration := by omega
    simp [this]
  | succ n ih =>
    intro p h
    simp only [Perturbation.iteratePixel]
    cases hd : pixelDone cap p with
    | true => simp [hd]
    | false =>
      simp only [hd, Bool.false_eq_true, if_false]
      exact ih (perturbAdvance r p) (by simp only [perturbAdvance]; omega)

/-- The randomly chosen pixel belongs to the pool. -/
theorem choosePixel_mem (choice : ℕ) (pool : List PixelData) (h : pool ≠ []) :
    choosePixel choice pool ∈ pool := by
  have hlt : choice % pool.length < pool.length :=
    Nat.mod_lt _ (List.length_pos.mpr h)
  rw [choosePixel, List.getD_eq_getElem?_getD, List.getElem?_eq_getElem hlt]
  simp [List.getElem_mem]

/-- `getD` on a mapped list applies the function to the corresponding
element, for in-range indices. -/
theorem getD_map_of_lt {α β : Type} [Inhabited α] [Inhabited β] (f : α → β)
    (l : List α) (n : ℕ) (h : n < l.length) :
    (l.map f).getD n default = f (l.getD n default) := by
  rw [List.getD_eq_getElem?_getD, List.getD_eq_getElem?_getD, List.getElem?_map,
    List.getElem?_eq_getElem h]
  simp

/-- One glitch-repair pass preserves the consistency of `delta_centre` with
the packing formula, for every surviving pixel. -/
theorem repairPass_preserves_centre (env : RenderEnv) (choice : ℕ)
    (pool : List PixelData)
    (hinv : ∀ p ∈ pool, p.delta_centre = refOffsetOf env p) :
    ∀ q ∈ repairPass env choice pool, q.delta_centre = refOffsetOf env q := by
  intro q hq
  simp only [repairPass, Perturbation.iterate, repairResetPool, List.map_map,
    List.mem_filter, List.mem_map, Function.comp] at hq
  obtain ⟨⟨p, hp, hq'⟩, _⟩ := hq
  subst hq'
  have hpre := iteratePixel_preserves_coords
    (env.get_reference (refWrtSaOf env choice pool))
    (env.get_reference (refWrtSaOf env choice pool)).current_iteration
    (env.get_reference (refWrtSaOf env choice pool)).current_iteration
    (repairReset env.ref_start (env.evaluate (refWrtSaOf env choice pool))
      (refWrtSaOf env choice pool) p)
  obtain ⟨hc, hx, hy⟩ := hpre
  simp only [refOffsetOf] at hinv ⊢
  rw [hc, hx, hy]
  exact hinv p hp

/-- The glitch-repair loop preserves the consistency of `delta_centre` with
the packing formula, for every surviving pixel, over any number of passes. -/
theorem repairLoop_preserves_centre (env : RenderEnv) :
    ∀ (fuel : ℕ) (choices : ℕ → ℕ) (pool : List PixelData),
      (∀ p ∈ pool, p.delta_centre = refOffsetOf env p) →
      ∀ q ∈ repairLoop env choices fuel pool, q.delta_centre = refOffsetOf env q := by
  intro fuel
  induction fuel with
  | zero =>
    intro choices pool hinv q hq
    exact hinv q hq
  | succ n ih =>
    intro choices pool hinv q hq
    simp only [repairLoop] at hq
    split at hq
    · exact ih (fun n => choices (n + 1)) (repairPass env (choices 0) pool)
        (repairPass_preserves_centre env (choices 0) pool hinv) q hq
    · exact hinv q hq

/-- Inversion of a successful construction: the renderer's approximation
order is the clamped automatic order of its own image dimensions, its
precision follows the radius formula, and the glitch tolerance is the
hardcoded `0.01`. -/
theorem new_ok_fields (P : ParseOracle) (s : Config) (r : FractalRenderer)
    (h : FractalRenderer.new P s = Except.ok r) :
    r.approximation_order = clampOrder (P.autoRawFn r.image_width r.image_height) ∧
    r.center_precision = newPrecision r.zoom r.image_width r.image_height ∧
    r.glitch_tolerance = 0.01 := by
  cases hw : s.image_width with
  | none => simp [FractalRenderer.new, hw] at h
  | some iw =>
  cases hh : s.image_height with
  | none => simp [FractalRenderer.new, hw, hh] at h
  | some ih =>
  cases hit : s.iterations with
  | none => simp [FractalRenderer.new, hw, hh, hit] at h
  | some it =>
  cases hz : s.zoom with
  | none => simp [FractalRenderer.new, hw, hh, hit, hz] at h
  | some zs =>
  cases hre : s.real with
  | none => simp [FractalRenderer.new, hw, hh, hit, hz, hre] at h
  | some rs =>
  cases him : s.imag with
  | none => simp [FractalRenderer.new, hw, hh, hit, hz, hre, him] at h
  | some ims =>
  cases hpz : P.parseZoom zs with
  | none => simp [FractalRenderer.new, hw, hh, hit, hz, hre, him, hpz] at h
  | some zp =>
  cases hpl : P.parseLocation rs ims with
  | none => simp [FractalRenderer.new, hw, hh, hit, hz, hre, him, hpz, hpl] at h
  | some loc =>
    obtain ⟨zm, ze⟩ := zp
    simp only [FractalRenderer.new, hw, hh, hit, hz, hre, him, hpz, hpl, reduceIte,
      Except.ok.injEq] at h
    subst h
    exact ⟨rfl, rfl, rfl⟩

/-- Claim C1: the glitch-repair loop of `render` runs exactly while the
glitched count exceeds `0.01 * glitch_tolerance * image_width * image_height`
(the constructor hardcodes `glitch_tolerance = 0.01`, making the threshold
`W * H / 10000`); it exits without running a pass once the glitched count is
below the threshold; and the first perturbation pass terminates: for any
finite cap, every pixel's loop reaches a done state within `cap` steps. -/
theorem render_repair_loop_spec :
    (∀ env : RenderEnv, env.glitch_tolerance = 0.01 →
      repairThreshold env = ((env.image_width * env.image_height : ℕ) : ℚ) / 10000) ∧
    (∀ (env : RenderEnv) (choices : ℕ → ℕ) (fuel : ℕ) (pool : List PixelData),
      (pool.length : ℚ) < repairThreshold env →
      repairLoop env choices fuel pool = pool) ∧
    (∀ (env : RenderEnv) (choices : ℕ → ℕ) (fuel : ℕ) (pool : List PixelData),
      (pool.length : ℚ) > repairThreshold env →
      repairLoop env choices (fuel + 1) pool =
        repairLoop env (fun n => choices (n + 1)) fuel
          (repairPass env (choices 0) pool)) ∧
    (∀ (P : ParseOracle) (s : Config) (r : FractalRenderer),
      FractalRenderer.new P s = Except.ok r → r.glitch_tolerance = 0.01) ∧
    (∀ (r : Reference) (cap : ℕ) (p : PixelData),
      pixelDone cap (Perturbation.iteratePixel r cap cap p) = true) := by
  refine ⟨?_, ?_, ?_, ?_, ?_⟩
  · intro env htol
    rw [repairThreshold, htol]
    ring
  · intro env choices fuel pool hlt
    cases fuel with
    | zero => rfl
    | succ n =>
      simp only [repairLoop]
      rw [if_neg (not_lt.mpr hlt.le)]
  · intro env choices fuel pool hgt
    simp only [repairLoop]
    rw [if_pos hgt]
  · intro P s r h
    exact (new_ok_fields P s r h).2.2
  · intro r cap p
    exact iteratePixel_done_of_fuel r cap cap p (Nat.le_add_left cap p.iteration)

/-- Witness for C1 at concrete inputs: the threshold formula at `env0`, an
immediately-exiting loop on an empty pool, a loop that runs one pass on a
one-pixel pool, the hardcoded tolerance of a constructed renderer, and a
terminating pixel loop. -/
theorem render_repair_loop_spec_witness :
    repairThreshold env0 = ((env0.image_width * env0.image_height : ℕ) : ℚ) / 10000 ∧
    repairLoop env0 (fun _ => 0) 3 [] = [] ∧
    repairLoop env0 (fun _ => 0) 1 [px0] =
      repairLoop env0 (fun _ => 0) 0 (repairPass env0 0 [px0]) ∧
    renderer0.glitch_tolerance = 0.01 ∧
    pixelDone 2 (Perturbation.iteratePixel ref0 2 2 px0) = true :=
  ⟨render_repair_loop_spec.1 env0 rfl,
   render_repair_loop_spec.2.1 env0 (fun _ => 0) 3 []
     (by norm_num [repairThreshold, env0]),
   render_repair_loop_spec.2.2.1 env0 (fun _ => 0) 0 [px0]
     (by norm_num [repairThreshold, env0]),
   render_repair_loop_spec.2.2.2.1 oracle0 config0 renderer0 rfl,
   render_repair_loop_spec.2.2.2.2 ref0 2 px0⟩

/-- Claim C2: in each glitch-repair pass the sampled pixel belongs to the
surviving glitched pool, the new reference offset equals that pixel's
`delta_centre`, and every surviving pixel is reset with
`iteration = reference.start_iteration`, `glitched = false`,
`delta_current = delta_start - SA.evaluate(delta_ref)` and
`delta_reference = delta_centre - delta_ref`, before perturbation runs on
the subset. -/
theorem repair_reset_pass_spec :
    ∀ (env : RenderEnv) (choice : ℕ) (pool : List PixelData),
      pool ≠ [] →
      (∀ p ∈ pool, p.delta_centre = refOffsetOf env p) →
      choosePixel choice pool ∈ pool ∧
      refWrtSaOf env choice pool = (choosePixel choice pool).delta_centre ∧
      repairResetPool env choice pool =
        pool.map (fun p =>
          { p with
            iteration := env.ref_start,
            glitched := false,
            delta_current :=
              p.delta_start - env.evaluate ((choosePixel choice pool).delta_centre),
            delta_reference :=
              p.delta_centre - (choosePixel choice pool).delta_centre }) := by
  intro env choice pool hne hinv
  have hmem := choosePixel_mem choice pool hne
  have href : refWrtSaOf env choice pool = (choosePixel choice pool).delta_centre :=
    (hinv _ hmem).symm
  refine ⟨hmem, href, ?_⟩
  rw [repairResetPool, href]
  rfl

/-- Witness for C2 on a one-pixel pool with the identity series
approximation. -/
theorem repair_reset_pass_spec_witness :
    choosePixel 0 [px0] ∈ [px0] ∧
    refWrtSaOf env0 0 [px0] = (choosePixel 0 [px0]).delta_centre ∧
    repairResetPool env0 0 [px0] =
      [px0].map (fun p =>
        { p with
          iteration := env0.ref_start,
          glitched := false,
          delta_current :=
            p.delta_start - env0.evaluate ((choosePixel 0 [px0]).delta_centre),
          delta_reference :=
            p.delta_centre - (choosePixel 0 [px0]).delta_centre }) :=
  repair_reset_pass_spec env0 0 [px0] (by simp)
    (by
      intro p hp
      simp only [List.mem_singleton] at hp
      subst hp
      rfl)

/-- Claim C3: in the first pass, the pixel packed at a given index has
`delta_centre = (i * delta_pixel + delta_top_left.re,
j * delta_pixel + delta_top_left.im)` with shared exponent
`-zoom.exponent` (where `i = index % W`, `j = index / W`),
`delta_reference` equal to `delta_centre`, `delta_start` equal to the series
approximation evaluated at `delta_centre` (which also initializes
`delta_current`), `iteration = reference.start_iteration`,
`derivative_current = 1`, and `glitched = escaped = false`. -/
theorem pack_pixel_spec :
    ∀ (env : RenderEnv) (start_iteration index : ℕ),
      (packPixel env start_iteration index).delta_centre =
        ComplexExtended.new
          ⟨((index % env.image_width : ℕ) : ℚ) * env.delta_pixel +
             env.delta_top_left.re,
           ((index / env.image_width : ℕ) : ℚ) * env.delta_pixel +
             env.delta_top_left.im⟩
          (-env.zoom_exponent) ∧
      (packPixel env start_iteration index).delta_reference =
        (packPixel env start_iteration index).delta_centre ∧
      (packPixel env start_iteration index).delta_start =
        env.evaluate ((packPixel env start_iteration index).delta_centre) ∧
      (packPixel env start_iteration index).delta_current =
        (packPixel env start_iteration index).delta_start ∧
      (packPixel env start_iteration index).iteration = start_iteration ∧
      (packPixel env start_iteration index).image_x = index % env.image_width ∧
      (packPixel env start_iteration index).image_y = index / env.image_width ∧
      (packPixel env start_iteration index).derivative_current = ⟨1, 0⟩ ∧
      (packPixel env start_iteration index).glitched = false ∧
      (packPixel env start_iteration index).escaped = false :=
  fun _ _ _ => ⟨rfl, rfl, rfl, rfl, rfl, rfl, rfl, rfl, rfl, rfl⟩

/-- Counterexample to claim C4 as stated: at `m = 1`, `e = -1` (zoom string
`"1E-1"`), `e * log₂ 10 ∈ (-4, -3)` is negative and non-integral, so Rust's
truncation-based `fract` differs from the claimed floor-based
`frac(x) = x - ⌊x⌋` by exactly 1, and the produced mantissa is half the
claimed `m * 2 ^ (x - ⌊x⌋)`. -/
theorem zoom_parse_floor_fract_counterexample :
    ¬((parseZoomReal 1 (-1)).mantissa =
        1 * (2 : ℝ) ^ Int.fract ((-1 : ℝ) * Real.logb 2 10)) := by
  intro h
  simp only [parseZoomReal] at h
  have h3 : (3 : ℝ) < Real.logb 2 10 := by
    rw [Real.lt_logb_iff_rpow_lt (by norm_num) (by norm_num)]
    rw [show (3 : ℝ) = ((3 : ℕ) : ℝ) by norm_num, Real.rpow_natCast]
    norm_num
  have h4 : Real.logb 2 10 < 4 := by
    rw [Real.logb_lt_iff_lt_rpow (by norm_num) (by norm_num)]
    rw [show (4 : ℝ) = ((4 : ℕ) : ℝ) by norm_num, Real.rpow_natCast]
    norm_num
  have hceil : ⌈(-1 : ℝ) * Real.logb 2 10⌉ = -3 := by
    rw [Int.ceil_eq_iff]
    push_cast
    constructor <;> linarith
  have hfloor : ⌊(-1 : ℝ) * Real.logb 2 10⌋ = -4 := by
    rw [Int.floor_eq_iff]
    push_cast
    constructor <;> linarith
  have htr : rustTrunc ((-1 : ℝ) * Real.logb 2 10) = -3 := by
    rw [rustTrunc, if_neg (by nlinarith : ¬(0 : ℝ) ≤ (-1 : ℝ) * Real.logb 2 10)]
    exact hceil
  have hfr : Int.fract ((-1 : ℝ) * Real.logb 2 10) =
      rustFract ((-1 : ℝ) * Real.logb 2 10) + 1 := by
    simp only [Int.fract, rustFract]
    rw [htr, hfloor]
    push_cast
    ring
  rw [one_mul, one_mul, hfr, Real.rpow_add (by norm_num : (0 : ℝ) < 2),
    Real.rpow_one] at h
  have hpos : (0 : ℝ) < (2 : ℝ) ^ rustFract ((-1 : ℝ) * Real.logb 2 10) :=
    Real.rpow_pos_of_pos (by norm_num) _
  linarith

/-- Claim C4 (amended): parsing a zoom string `"mE e"` yields an extended
float whose mantissa is `m * 2 ^ fract (e * log₂ 10)` with `fract` Rust's
truncation-based `f64::fract` (equal to `x - ⌊x⌋` only for `x ≥ 0`) and
whose exponent is `⌊e * log₂ 10⌋`; for `e ≥ 0` (zoom at least 1) the value
is exactly `m * 10 ^ e`. -/
theorem zoom_parse_formula_amended :
    ∀ m e : ℝ,
      (parseZoomReal m e).mantissa =
        m * (2 : ℝ) ^ rustFract (e * Real.logb 2 10) ∧
      (parseZoomReal m e).exponent = ⌊e * Real.logb 2 10⌋ ∧
      (0 ≤ e →
        (parseZoomReal m e).mantissa * (2 : ℝ) ^ (parseZoomReal m e).exponent =
          m * (10 : ℝ) ^ e) := by
  intro m e
  refine ⟨rfl, rfl, ?_⟩
  intro he
  show m * (2 : ℝ) ^ rustFract (e * Real.logb 2 10) *
      (2 : ℝ) ^ (⌊e * Real.logb 2 10⌋ : ℤ) = m * (10 : ℝ) ^ e
  rw [← Real.rpow_intCast 2 ⌊e * Real.logb 2 10⌋]
  have hx : 0 ≤ e * Real.logb 2 10 :=
    mul_nonneg he (Real.logb_nonneg (by norm_num) (by norm_num))
  have hfr : rustFract (e * Real.logb 2 10) = Int.fract (e * Real.logb 2 10) := by
    simp only [rustFract, rustTrunc, if_pos hx, Int.fract]
  rw [hfr, mul_assoc, ← Real.rpow_add (by norm_num : (0 : ℝ) < 2)]
  rw [Int.fract_add_floor]
  rw [mul_comm e (Real.logb 2 10), Real.rpow_mul (by norm_num : (0 : ℝ) ≤ 2)]
  rw [Real.rpow_logb (by norm_num) (by norm_num) (by norm_num)]

/-- Witness for the amended C4: at `m = 1`, `e = 1` the parsed zoom's value
is exactly `10`. -/
theorem zoom_parse_formula_amended_witness :
    (parseZoomReal 1 1).mantissa * (2 : ℝ) ^ (parseZoomReal 1 1).exponent =
      1 * (10 : ℝ) ^ (1 : ℝ) :=
  (zoom_parse_formula_amended 1 1).2.2 (by norm_num)

/-- Claim C5: the automatic series-approximation order is the clamp of
`⌊log_1e6(W * H) ^ 6.619 * 16⌋` to `[3, 64]`, and for every image size the
result (indeed, any clamped value) lies in `[3, 64]`. -/
theorem auto_order_clamp :
    ∀ image_width image_height : ℕ,
      autoApproximationOrder image_width image_height =
        clampOrder (autoRawReal image_width image_height) ∧
      ((autoApproximationOrder image_width image_height : ℕ) : ℤ) =
        max 3 (min ⌊(Real.logb 1e6 ((image_width : ℝ) * (image_height : ℝ))) ^
          (6.619 : ℝ) * 16⌋ 64) ∧
      3 ≤ autoApproximationOrder image_width image_height ∧
      autoApproximationOrder image_width image_height ≤ 64 ∧
      ∀ a : ℕ, 3 ≤ clampOrder a ∧ clampOrder a ≤ 64 := by
  intro W H
  refine ⟨rfl, ?_, ?_, ?_, ?_⟩
  · simp only [autoApproximationOrder, autoRawReal, clampOrder]
    generalize ⌊(Real.logb 1e6 ((W : ℝ) * (H : ℝ))) ^ (6.619 : ℝ) * 16⌋ = f
    omega
  · simp only [autoApproximationOrder, clampOrder]
    omega
  · simp only [autoApproximationOrder, clampOrder]
    omega
  · intro a
    simp only [clampOrder]
    omega

/-- Claim C6: the arbitrary-precision center is constructed with precision
`max(64, -radius.exponent + 64)` bits, where `radius = delta_pixel * W` in
the extended domain and `delta_pixel = (-2 * (4 / H - 2) / zoom) / H`;
the precision is always at least 64 bits. -/
theorem center_precision_formula :
    (∀ (zoom : FloatExtended) (image_width image_height : ℕ),
      newPrecision zoom image_width image_height =
        max 64 (-(newRadius zoom image_width image_height).exponent + 64) ∧
      newRadius zoom image_width image_height =
        FloatExtended.mulq (newDeltaPixel zoom image_height) (image_width : ℚ) ∧
      newDeltaPixel zoom image_height =
        FloatExtended.divq
          (FloatExtended.qdiv (-2 * (4 / (image_height : ℚ) - 2)) zoom)
          (image_height : ℚ) ∧
      64 ≤ newPrecision zoom image_width image_height) ∧
    (∀ (P : ParseOracle) (s : Config) (r : FractalRenderer),
      FractalRenderer.new P s = Except.ok r →
      r.center_precision = newPrecision r.zoom r.image_width r.image_height) := by
  constructor
  · intro zoom W H
    exact ⟨rfl, rfl, rfl, le_max_left _ _⟩
  · intro P s r h
    exact (new_ok_fields P s r h).2.1

/-- Witness for C6: a successful concrete construction whose stored precision
follows the radius formula. -/
theorem center_precision_formula_witness :
    FractalRenderer.new oracle0 config0 = Except.ok renderer0 ∧
    renderer0.center_precision =
      newPrecision renderer0.zoom renderer0.image_width renderer0.image_height :=
  ⟨rfl, center_precision_formula.2 oracle0 config0 renderer0 rfl⟩

/-- Claim C7: renderer construction fails for every settings record that is
missing (or cannot read) one of `image_width`, `image_height`, `iterations`,
`zoom`, `real` or `imag`, and for every center pair that does not parse;
in those cases no renderer value is returned. -/
theorem new_missing_settings_fails :
    ∀ (P : ParseOracle) (s : Config),
      (s.image_width = none ∨ s.image_height = none ∨ s.iterations = none ∨
       s.zoom = none ∨ s.real = none ∨ s.imag = none ∨
       (∃ zs, s.zoom = some zs ∧ P.parseZoom zs = none) ∨
       (∃ rs ims, s.real = some rs ∧ s.imag = some ims ∧
         P.parseLocation rs ims = none)) →
      (FractalRenderer.new P s).isOk = false := by
  intro P s hbad
  cases hw : s.image_width with
  | none => simp [FractalRenderer.new, hw, Except.isOk, Except.toBool]
  | some iw =>
  cases hh : s.image_height with
  | none => simp [FractalRenderer.new, hw, hh, Except.isOk, Except.toBool]
  | some ih =>
  cases hit : s.iterations with
  | none => simp [FractalRenderer.new, hw, hh, hit, Except.isOk, Except.toBool]
  | some it =>
  cases hz : s.zoom with
  | none => simp [FractalRenderer.new, hw, hh, hit, hz, Except.isOk, Except.toBool]
  | some zs =>
  cases hre : s.real with
  | none => simp [FractalRenderer.new, hw, hh, hit, hz, hre, Except.isOk, Except.toBool]
  | some rs =>
  cases him : s.imag with
  | none => simp [FractalRenderer.new, hw, hh, hit, hz, hre, him, Except.isOk, Except.toBool]
  | some ims =>
  cases hpz : P.parseZoom zs with
  | none => simp [FractalRenderer.new, hw, hh, hit, hz, hre, him, hpz, Except.isOk, Except.toBool]
  | some zp =>
  obtain ⟨zm, ze⟩ := zp
  cases hpl : P.parseLocation rs ims with
  | none =>
    simp [FractalRenderer.new, hw, hh, hit, hz, hre, him, hpz, hpl, Except.isOk, Except.toBool]
  | some loc =>
    exfalso
    rcases hbad with h | h | h | h | h | h | ⟨a, ha, hpn⟩ | ⟨a, b, ha, hb, hpn⟩
    · rw [hw] at h; exact Option.noConfusion h
    · rw [hh] at h; exact Option.noConfusion h
    · rw [hit] at h; exact Option.noConfusion h
    · rw [hz] at h; exact Option.noConfusion h
    · rw [hre] at h; exact Option.noConfusion h
    · rw [him] at h; exact Option.noConfusion h
    · rw [hz] at ha
      injection ha with ha'
      subst ha'
      rw [hpz] at hpn
      exact Option.noConfusion hpn
    · rw [hre] at ha
      injection ha with ha'
      subst ha'
      rw [him] at hb
      injection hb with hb'
      subst hb'
      rw [hpl] at hpn
      exact Option.noConfusion hpn

/-- Witness for C7: construction on a settings record with a missing `imag`
entry does not return a renderer. -/
theorem new_missing_settings_fails_witness :
    (FractalRenderer.new oracle0 configBad).isOk = false :=
  new_missing_settings_fails oracle0 configBad
    (Or.inr (Or.inr (Or.inr (Or.inr (Or.inr (Or.inl rfl))))))

/-- Claim C8: `delta_centre` is written exactly once, at pixel packing,
where it satisfies the packing formula of its own coordinates; the
glitch-repair reset mutates only `iteration`, `glitched`, `delta_current`
and `delta_reference`, leaving `delta_centre`, `delta_start`, `image_x` and
`image_y` unchanged; the perturbation loop also never writes `delta_centre`
or the coordinates; hence consistency of `delta_centre` with the packing
formula is preserved by arbitrarily many repair passes. -/
theorem delta_centre_immutable :
    (∀ (env : RenderEnv) (start_iteration index : ℕ),
      (packPixel env start_iteration index).delta_centre =
        refOffsetOf env (packPixel env start_iteration index)) ∧
    (∀ (start_iteration : ℕ) (delta_z reference_wrt_sa : ComplexExtended)
      (p : PixelData),
      repairReset start_iteration delta_z reference_wrt_sa p =
        { p with
          iteration := start_iteration,
          glitched := false,
          delta_current := p.delta_start - delta_z,
          delta_reference := p.delta_centre - reference_wrt_sa } ∧
      (repairReset start_iteration delta_z reference_wrt_sa p).delta_centre =
        p.delta_centre ∧
      (repairReset start_iteration delta_z reference_wrt_sa p).delta_start =
        p.delta_start ∧
      (repairReset start_iteration delta_z reference_wrt_sa p).image_x =
        p.image_x ∧
      (repairReset start_iteration delta_z reference_wrt_sa p).image_y =
        p.image_y) ∧
    (∀ (r : Reference) (cap fuel : ℕ) (p : PixelData),
      (Perturbation.iteratePixel r cap fuel p).delta_centre = p.delta_centre ∧
      (Perturbation.iteratePixel r cap fuel p).image_x = p.image_x ∧
      (Perturbation.iteratePixel r cap fuel p).image_y = p.image_y) ∧
    (∀ (env : RenderEnv) (choices : ℕ → ℕ) (fuel : ℕ) (pool : List PixelData),
      (∀ p ∈ pool, p.delta_centre = refOffsetOf env p) →
      ∀ q ∈ repairLoop env choices fuel pool,
        q.delta_centre = refOffsetOf env q) := by
  refine ⟨fun _ _ _ => rfl, ?_, ?_, ?_⟩
  · intro s dz ro p
    exact ⟨rfl, rfl, rfl, rfl, rfl⟩
  · intro r cap fuel p
    exact iteratePixel_preserves_coords r cap fuel p
  · intro env choices fuel pool hinv q hq
    exact repairLoop_preserves_centre env fuel choices pool hinv q hq

/-- Witness for C8: the packing-formula consistency of a surviving pixel
after a repair-loop run. -/
theorem delta_centre_immutable_witness :
    px0.delta_centre = refOffsetOf env0 px0 :=
  delta_centre_immutable.2.2.2 env0 (fun _ => 0) 0 [px0]
    (by
      intro p hp
      simp only [List.mem_singleton] at hp
      subst hp
      rfl)
    px0 (List.mem_singleton.mpr rfl)

/-- Claim C9: the approximation order passed on by the constructor is always
the clamped auto-computed value of the renderer's own image dimensions (the
local `approximation_order` is hardcoded to `0`, so the `if` always takes
the auto branch); consequently two constructions with the same dimensions
agree on the order regardless of any other settings entry. -/
theorem approximation_order_auto :
    (∀ (P : ParseOracle) (s : Config) (r : FractalRenderer),
      FractalRenderer.new P s = Except.ok r →
      r.approximation_order =
        clampOrder (P.autoRawFn r.image_width r.image_height)) ∧
    (∀ (P : ParseOracle) (s1 s2 : Config) (r1 r2 : FractalRenderer),
      FractalRenderer.new P s1 = Except.ok r1 →
      FractalRenderer.new P s2 = Except.ok r2 →
      r1.image_width = r2.image_width → r1.image_height = r2.image_height →
      r1.approximation_order = r2.approximation_order) := by
  constructor
  · intro P s r h
    exact (new_ok_fields P s r h).1
  · intro P s1 s2 r1 r2 h1 h2 hw hh
    rw [(new_ok_fields P s1 r1 h1).1, (new_ok_fields P s2 r2 h2).1, hw, hh]

/-- Witness for C9: a concrete construction whose stored order is the
clamped auto value. -/
theorem approximation_order_auto_witness :
    renderer0.approximation_order =
      clampOrder (oracle0.autoRawFn renderer0.image_width renderer0.image_height) :=
  approximation_order_auto.1 oracle0 config0 renderer0 rfl

/-- Claim C10: the glitch-repair reset does not touch `derivative_current`
(the reset to 1 is commented out in the source): after the reset, every
pool pixel's derivative equals its value at the end of the previous pass. -/
theorem derivative_not_reset :
    (∀ (start_iteration : ℕ) (delta_z reference_wrt_sa : ComplexExtended)
      (p : PixelData),
      (repairReset start_iteration delta_z reference_wrt_sa p).derivative_current =
        p.derivative_current) ∧
    (∀ (env : RenderEnv) (choice : ℕ) (pool : List PixelData) (k : ℕ),
      k < pool.length →
      ((repairResetPool env choice pool).getD k default).derivative_current =
        ((pool.getD k default)).derivative_current) := by
  constructor
  · intro s dz ro p
    rfl
  · intro env choice pool k hk
    rw [repairResetPool, getD_map_of_lt _ pool k hk]
    rfl

/-- Witness for C10: on a one-pixel pool, the pixel's derivative after the
reset equals the derivative before it. -/
theorem derivative_not_reset_witness :
    ((repairResetPool env0 0 [px0]).getD 0 default).derivative_current =
      (([px0].getD 0 default)).derivative_current :=
  derivative_not_reset.2 env0 0 [px0] 0 (by decide)

end RustFractal
